import Mathlib

/-!
Shallow embedding of `src/table_generator.py`, a synthetic-CSV generator.

The Python program is single-threaded and all its randomness flows through the
process-wide `random` module.  We model that generator as an infinite stream of
raw natural-number draws together with a cursor (`RNG`); each library primitive
(`random.randint`, `random.random`, `random.choice`, `random.choices`) consumes
raw draws and is modelled by a pure function that respects the documented
contract of the primitive (result ranges), since the Mersenne-Twister internals
are not part of this repository.  Everything else is translated line by line
from `src/table_generator.py`; source line numbers are cited in doc comments.

Fallible code (`raise ValueError`) is modelled with `Except String`.  Writing
the two CSV files is modelled by returning their contents: `TableOut` holds the
data rows of the main and the correct-rows file, `RunResult` additionally holds
the two paths and the header row, and `RunResult.mainBytes` /
`RunResult.correctBytes` render the exact file text the `csv` module would
write (dialect `excel`: comma delimiter, minimal quoting with doubled `"`,
CRLF record terminator).
-/

namespace TableGen

/-- Model of the process-wide PRNG of Python's `random` module: an infinite
stream of raw draws and a cursor. -/
structure RNG where
  stream : Nat → Nat
  pos : Nat

/-- Consume one raw draw from the generator. -/
def RNG.next (g : RNG) : Nat × RNG :=
  (g.stream g.pos, ⟨g.stream, g.pos + 1⟩)

/-- Source line 13: `HEX_CHARS = 'ABCDEF'`. -/
def HEX_CHARS : String := "ABCDEF"

/-- Source line 14: `STR_CHARS = 'abcdefghijklmnopqrstuvwxyz '` (26 letters and
a space). -/
def STR_CHARS : String := "abcdefghijklmnopqrstuvwxyz "

/-- Source line 15: `HEX_LEN = 8`. -/
def HEX_LEN : Nat := 8

/-- Source lines 18-22: the `ColumnType` enum with members INT, STR, HEX. -/
inductive ColumnType where
  | INT
  | STR
  | HEX
deriving DecidableEq

/-- Source line 26: `list(ColumnType)`, in declaration order. -/
def columnTypeList : List ColumnType :=
  [ColumnType.INT, ColumnType.STR, ColumnType.HEX]

/-- Source lines 25-26: `random_type` returns `random.choice(list(ColumnType))`.
`random.choice(seq)` picks one element of the non-empty sequence; we model the
pick through the raw draw taken modulo the length. -/
def random_type (g : RNG) : ColumnType × RNG :=
  let (n, g1) := g.next
  (columnTypeList.getD (n % columnTypeList.length) ColumnType.INT, g1)

/-- Model of `random.randint(a, b)`: a uniform integer in `[a, b]`, both ends
included.  One raw draw is consumed and mapped into the range modulo its
size. -/
def randint (a b : Int) (g : RNG) : Int × RNG :=
  let (n, g1) := g.next
  (a + ((n % (b - a + 1).toNat : Nat) : Int), g1)

/-- Model of `random.choices(chars, k=k)`: `k` independent uniform picks from
the non-empty character list `chars` (one raw draw per pick). -/
def randCharList (chars : List Char) : Nat → RNG → List Char × RNG
  | 0, g => ([], g)
  | k + 1, g =>
    let (n, g1) := g.next
    let c := chars.getD (n % chars.length) ' '
    let (rest, g2) := randCharList chars k g1
    (c :: rest, g2)

/-- Denominator of the model of `random.random()`: Python floats in `[0, 1)`
produced by the generator are multiples of `2 ^ -53`. -/
def floatDenom : Nat := 2 ^ 53

/-- Model of `random.random()`: a float in `[0, 1)`, modelled as the rational
`(n % 2 ^ 53) / 2 ^ 53` where `n` is one raw draw. -/
def randFloat (g : RNG) : ℚ × RNG :=
  let (n, g1) := g.next
  (mkRat ((n % floatDenom : Nat) : Int) floatDenom, g1)

/-- Model of Python `str.strip()`: drop leading and trailing whitespace.
(Python also strips a few exotic space characters that never matter here.) -/
def pyStrip (s : String) : String :=
  String.mk
    (((s.toList.dropWhile Char.isWhitespace).reverse.dropWhile Char.isWhitespace).reverse)

/-- A cell value.  `random_value` produces Python `int`s for INT columns and
`str`s for STR/HEX columns; explicitly supplied condition values are `str`s. -/
inductive Value where
  | int (i : Int)
  | str (s : String)
deriving DecidableEq

/-- Source lines 29-38: `random_value(col_type)`.  INT draws
`random.randint(-100, 100)`; STR draws a length with `random.randint(0, 25)`
and then that many characters from `STR_CHARS`; HEX draws `HEX_LEN` characters
from `HEX_CHARS`.  The trailing `raise ValueError` branch is unreachable: the
enum is closed, so the Lean match is total. -/
def random_value (col_type : ColumnType) (g : RNG) : Value × RNG :=
  match col_type with
  | ColumnType.INT =>
    let (i, g1) := randint (-100) 100 g
    (Value.int i, g1)
  | ColumnType.STR =>
    let (len, g1) := randint 0 25 g
    let (cs, g2) := randCharList STR_CHARS.toList len.toNat g1
    (Value.str (String.mk cs), g2)
  | ColumnType.HEX =>
    let (cs, g1) := randCharList HEX_CHARS.toList HEX_LEN g
    (Value.str (String.mk cs), g1)

/-- Model of Python `str.split(sep)` for a one-character separator, on the
character list: splits at every occurrence and keeps empty pieces, so
`"a::b"` gives `["a", "", "b"]` and `""` gives `[""]`.  (Both call sites of
`split` in the source pass a one-character separator.)  The `[]` arm of the
inner match is unreachable: the function never returns an empty list. -/
def splitChar (d : Char) : List Char → List (List Char)
  | [] => [[]]
  | c :: cs =>
    match splitChar d cs with
    | [] => [[c]]
    | p :: ps => if c = d then [] :: p :: ps else (c :: p) :: ps

/-- Python `s.split(d)` for the one-character separator `d`, as strings. -/
def pySplit (s : String) (d : Char) : List String :=
  (splitChar d s.toList).map (fun cs => String.mk cs)

/-- Source lines 41-47: `read_key_value(encoded, delimiter, default_value)`.
When the delimiter occurs, the source runs `key, value = encoded.split(delimiter)`:
tuple unpacking succeeds only when the split has exactly two pieces, i.e. the
delimiter occurs exactly once; with two or more occurrences Python raises
`ValueError: too many values to unpack`.  Otherwise the whole token is the key
and the default is returned unchanged (only the key gets `.strip()`). -/
def read_key_value (encoded : String) (delimiter : Char)
    (default_value : Option String) : Except String (String × Option String) :=
  if encoded.toList.contains delimiter then
    match pySplit encoded delimiter with
    | [key, v] => Except.ok (pyStrip key, some (pyStrip v))
    | parts =>
      Except.error ("too many values to unpack (expected 2, got " ++
        toString parts.length ++ ")")
  else
    Except.ok (pyStrip encoded, default_value)

/-- First-match lookup in an association list; models Python dict indexing for
the dicts of this program (keys are inserted at most once, or overwritten in
place). -/
def dictFind {α : Type} : List (String × α) → String → Option α
  | [], _ => none
  | (k, v) :: rest, key => if key = k then some v else dictFind rest key

/-- Python `key in dict`. -/
def dictMem {α : Type} (d : List (String × α)) (key : String) : Bool :=
  (dictFind d key).isSome

/-- Python `dict[key] = v`: overwrite in place when the key is present (keeping
its position), append otherwise. -/
def dictInsert {α : Type} : List (String × α) → String → α → List (String × α)
  | [], key, v => [(key, v)]
  | (k, w) :: rest, key, v =>
    if k = key then (k, v) :: rest else (k, w) :: dictInsert rest key v

/-- Source lines 50-58: `generate_row(column_list, column_types,
condition_values)`.  Values are produced in column order; a column named in
`condition_values` gets its fixed value, every other column gets a fresh
`random_value` of its declared type.  Python raises `KeyError` when a column
has no entry in `column_types`; `main` always declares a type for every
generated column, so the `getD` default is unreachable in runs of `main`. -/
def generate_row (column_list : List String)
    (column_types : List (String × ColumnType))
    (condition_values : List (String × Value)) (g : RNG) : List Value × RNG :=
  match column_list with
  | [] => ([], g)
  | col_name :: rest =>
    let (v, g1) :=
      match dictFind condition_values col_name with
      | some v => (v, g)
      | none => random_value ((dictFind column_types col_name).getD ColumnType.INT) g
    let (vs, g2) := generate_row rest column_types condition_values g1
    (v :: vs, g2)

/-- Result of the ordinary generation loop of `generate_table` (source lines
68-76): the data rows written to the main file, those also written to the
correct-rows file, the `had_correct_rows` flag, and the generator state. -/
structure LoopOut where
  ms : List (List Value)
  cs : List (List Value)
  had : Bool
  g : RNG

/-- Source lines 69-76: the `for _ in range(...)` loop of `generate_table`.
Each iteration draws `random.random()`; on success the row is built with the
condition values and written to both files, otherwise it is built without them
and written only to the main file. -/
def genLoop (column_list : List String) (column_types : List (String × ColumnType))
    (condition_values : List (String × Value)) (condition_freq : ℚ) :
    Nat → RNG → LoopOut
  | 0, g => ⟨[], [], false, g⟩
  | n + 1, g =>
    let (r, g1) := randFloat g
    if r < condition_freq then
      let (row, g2) := generate_row column_list column_types condition_values g1
      let out := genLoop column_list column_types condition_values condition_freq n g2
      ⟨row :: out.ms, row :: out.cs, true, out.g⟩
    else
      let (row, g2) := generate_row column_list column_types [] g1
      let out := genLoop column_list column_types condition_values condition_freq n g2
      ⟨row :: out.ms, out.cs, out.had, out.g⟩

/-- Data rows of the two output files (headers are handled by `RunResult`). -/
structure TableOut where
  mainRows : List (List Value)
  correctRows : List (List Value)
deriving DecidableEq

/-- Source lines 61-83: `generate_table`.  Both writers first emit the header
(recorded separately in `RunResult`); then `range(n_rows - 1 if guaranteed else
n_rows)` ordinary iterations run (`range` of a non-positive number is empty,
hence `Int.toNat`); finally, in guaranteed mode only, one more row is written,
forced to be correct when the probability draw succeeds or when no correct row
was produced yet.  The Python `or` evaluates `random.random()` first in every
case, so the draw is always consumed. -/
def generate_table (n_rows : Int) (column_list : List String)
    (column_types : List (String × ColumnType))
    (condition_values : List (String × Value)) (condition_freq : ℚ)
    (guaranteed : Bool) (g : RNG) : TableOut :=
  match guaranteed with
  | false =>
    let out := genLoop column_list column_types condition_values condition_freq
      n_rows.toNat g
    ⟨out.ms, out.cs⟩
  | true =>
    let out := genLoop column_list column_types condition_values condition_freq
      (n_rows - 1).toNat g
    let (r, g2) := randFloat out.g
    if r < condition_freq ∨ out.had = false then
      let (row, _) := generate_row column_list column_types condition_values g2
      ⟨out.ms ++ [row], out.cs ++ [row]⟩
    else
      let (row, _) := generate_row column_list column_types [] g2
      ⟨out.ms ++ [row], out.cs⟩

/-- Source lines 120-123 map a type token to a `ColumnType`: `ColumnType(tok)`
raises `ValueError` for a token that is not one of the three member values. -/
def parseColumnType (tok : String) : Except String ColumnType :=
  if tok = "int" then Except.ok ColumnType.INT
  else if tok = "str" then Except.ok ColumnType.STR
  else if tok = "hex" then Except.ok ColumnType.HEX
  else Except.error (tok ++ " is not a valid ColumnType")

/-- Source lines 117-127: the body of the `for token in columns.split(',')`
loop, for one token.  The token goes through `read_key_value` with delimiter
`:` and default `any`; an empty name is an error; type `any` draws
`random_type()`; any other token must name a member of the enum; a name
already present in `column_types` is an error (checked after the type is
resolved, so the draw for `any` happens first); otherwise the column is
appended. -/
def parseColStep (token : String) (column_list : List String)
    (column_types : List (String × ColumnType)) (g : RNG) :
    Except String (List String × List (String × ColumnType) × RNG) :=
  match read_key_value token ':' (some ("any")) with
  | Except.error m => Except.error m
  | Except.ok (name, col_type_opt) =>
    let col_type_tok := col_type_opt.getD "any"
    if name = "" then Except.error ("Column name cannot be an empty string")
    else if col_type_tok = "any" then
      let (t, g1) := random_type g
      if dictMem column_types name then
        Except.error ("Column name " ++ name ++ " is written twice")
      else
        Except.ok (column_list ++ [name], column_types ++ [(name, t)], g1)
    else
      match parseColumnType col_type_tok with
      | Except.error m => Except.error m
      | Except.ok t =>
        if dictMem column_types name then
          Except.error ("Column name " ++ name ++ " is written twice")
        else
          Except.ok (column_list ++ [name], column_types ++ [(name, t)], g)

/-- Source lines 116-127: the `for token in columns.split(',')` loop: run
`parseColStep` over the tokens, stopping at the first error. -/
def parseColumns : List String → List String → List (String × ColumnType) →
    RNG → Except String (List String × List (String × ColumnType) × RNG)
  | [], column_list, column_types, g => Except.ok (column_list, column_types, g)
  | token :: rest, column_list, column_types, g =>
    match parseColStep token column_list column_types g with
    | Except.error m => Except.error m
    | Except.ok (column_list1, column_types1, g1) =>
      parseColumns rest column_list1 column_types1 g1

/-- Source lines 134-135: `while col_name in column_types: col_name += '_'`.
The loop terminates because the candidate names are pairwise distinct and the
dict is finite; fuel `column_types.length + 1` therefore always suffices. -/
def synthNameAux (column_types : List (String × ColumnType)) :
    Nat → String → String
  | 0, base => base
  | fuel + 1, base =>
    if dictMem column_types base then synthNameAux column_types fuel (base ++ "_")
    else base

/-- The unique name found for a synthesized column (source lines 133-135). -/
def synthName (column_types : List (String × ColumnType)) (base : String) : String :=
  synthNameAux column_types (column_types.length + 1) base

/-- Source lines 131-137: the `for i in range(len(column_list), n_columns)`
loop appending synthesized columns `column_{i}` (underscored until unique),
each with a freshly drawn random type. -/
def addSyntheticColumns : List Nat → List String →
    List (String × ColumnType) → RNG →
    List String × List (String × ColumnType) × RNG
  | [], column_list, column_types, g => (column_list, column_types, g)
  | i :: rest, column_list, column_types, g =>
    let col_name := synthName column_types ("column_" ++ toString i)
    let (t, g1) := random_type g
    addSyntheticColumns rest (column_list ++ [col_name])
      (column_types ++ [(col_name, t)]) g1

/-- Source lines 113-137: build the ordered column list and the name-to-type
dict from the `columns` and `n_columns` arguments.  With `columns` absent the
explicit list is empty; then `n_columns`, when given, must not be smaller than
the explicit list, and any shortfall is filled with synthesized columns. -/
def buildColumns (columns : Option String) (n_columns : Option Int) (g : RNG) :
    Except String (List String × List (String × ColumnType) × RNG) :=
  let parsed :=
    match columns with
    | none => Except.ok ([], [], g)
    | some s => parseColumns (pySplit s ',') [] [] g
  match parsed with
  | Except.error m => Except.error m
  | Except.ok (column_list, column_types, g1) =>
    match n_columns with
    | none => Except.ok (column_list, column_types, g1)
    | some nc =>
      if (column_list.length : Int) > nc then
        Except.error ("Number of columns is set to " ++ toString nc ++
          ", got " ++ toString column_list.length ++ " instead")
      else if (column_list.length : Int) < nc then
        Except.ok (addSyntheticColumns ((List.range nc.toNat).drop column_list.length)
          column_list column_types g1)
      else
        Except.ok (column_list, column_types, g1)

/-- Source lines 140-147: the `for token in conditions.split(',')` loop.  Each
token goes through `read_key_value` with delimiter `=` and default `None`; a
name not declared as a column is an error; an absent value is synthesized once
with the column's type; the pair is stored in the dict (overwriting a repeated
name, as Python dict assignment does). -/
def parseConditions : List String → List (String × ColumnType) →
    List (String × Value) → RNG → Except String (List (String × Value) × RNG)
  | [], _, condition_values, g => Except.ok (condition_values, g)
  | token :: rest, column_types, condition_values, g =>
    match read_key_value token '=' none with
    | Except.error m => Except.error m
    | Except.ok (col_name, v) =>
      if dictMem column_types col_name = false then
        Except.error ("Unknown column " ++ col_name)
      else
        match v with
        | some s =>
          parseConditions rest column_types
            (dictInsert condition_values col_name (Value.str s)) g
        | none =>
          let (w, g1) :=
            random_value ((dictFind column_types col_name).getD ColumnType.INT) g
          parseConditions rest column_types
            (dictInsert condition_values col_name w) g1

/-- Source lines 138-147: the condition dict, empty when `conditions` is
absent. -/
def buildConditions (conditions : Option String)
    (column_types : List (String × ColumnType)) (g : RNG) :
    Except String (List (String × Value) × RNG) :=
  match conditions with
  | none => Except.ok ([], g)
  | some s => parseConditions (pySplit s ',') column_types [] g

/-- Last path component (`pathlib.PurePath.name`), for the relative POSIX
paths this tool is used with. -/
def pathName (p : String) : String :=
  String.mk ((splitChar '/' p.toList).getLastD [])

/-- Index of the last dot in a file name (`name.rfind('.')`), `none` when there
is no dot. -/
def lastDotIdx (l : List Char) : Option Nat :=
  ((List.range l.length).filter (fun i => l.getD i ' ' = '.')).getLast?

/-- `pathlib.PurePath.suffix`: the part of the name from its last dot on, and
`""` when the last dot is absent, leading, or trailing. -/
def pathSuffix (p : String) : String :=
  let n := (pathName p).toList
  match lastDotIdx n with
  | none => ""
  | some i =>
    if 0 < i ∧ i < n.length - 1 then String.mk (n.drop i) else ""

/-- `pathlib.PurePath.stem`: the name up to its last dot (same guard as
`pathSuffix`). -/
def pathStem (p : String) : String :=
  let n := (pathName p).toList
  match lastDotIdx n with
  | none => String.mk n
  | some i =>
    if 0 < i ∧ i < n.length - 1 then String.mk (n.take i) else String.mk n

/-- All components but the last (`pathlib.PurePath.parent`); a bare file name
has parent `.`. -/
def pathParent (p : String) : String :=
  let parts := splitChar '/' p.toList
  if parts.length ≤ 1 then "."
  else String.intercalate "/" ((parts.dropLast).map (fun cs => String.mk cs))

/-- `pathlib`'s `/` operator for the shapes produced here: joining onto `.`
drops the dot. -/
def pathJoin (d f : String) : String :=
  if d = "." then f else d ++ "/" ++ f

/-- Source line 151: the default correct-rows path,
`out_file.parent / f'{out_file.stem}_correct.{out_file.suffix}'`.  Note that
`suffix` already carries its leading dot and the format string inserts another
one. -/
def defaultCorrectPath (out_file : String) : String :=
  pathJoin (pathParent out_file)
    (pathStem out_file ++ "_correct." ++ pathSuffix out_file)

/-- The CLI arguments of `main` (source lines 86-87) with their defaults.
`condition_frequency` is a Python float, modelled as a rational; an absent
flag is `none`. -/
structure Args where
  n_rows : Int
  out_file : String
  out_file_correct : Option String := none
  columns : Option String := none
  n_columns : Option Int := none
  seed : Option Int := none
  conditions : Option String := none
  condition_frequency : ℚ := mkRat 1 10
  guaranteed : Bool := false

/-- Source lines 109-112: `random.seed(seed)` puts the global generator into a
state that is a deterministic function of the seed.  The Mersenne-Twister
seeding procedure is library code outside this repository; it is modelled as
an arbitrary but fixed injective-enough stream of the seed. -/
def seedRNG (s : Int) : RNG :=
  ⟨fun i => s.natAbs + i, 0⟩

/-- Source lines 109-112: with no seed, `random.seed()` draws entropy from the
environment, modelled by the ambient generator handed to `main`; with a seed,
the state depends only on the seed. -/
def initRNG : Option Int → RNG → RNG
  | none, entropy => entropy
  | some s, _ => seedRNG s

/-- Everything `main` has computed by source line 153, just before it calls
`generate_table`: the validated schema, the resolved condition values, the two
output paths, and the generator state. -/
structure Config where
  n_rows : Int
  main_path : String
  correct_path : String
  column_list : List String
  column_types : List (String × ColumnType)
  condition_values : List (String × Value)
  condition_frequency : ℚ
  guaranteed : Bool
  g : RNG

/-- Source lines 149-153: the correct-rows output path, the given one or the
default derived from `out_file`. -/
def outCorrectPath (a : Args) : String :=
  match a.out_file_correct with
  | none => defaultCorrectPath a.out_file
  | some p => p

/-- Source lines 107-153: the whole body of `main` before the `generate_table`
call — argument validation, seeding, schema and condition building, and output
path derivation.  Every `raise` of `main` happens inside this phase. -/
def buildConfig (a : Args) (entropy : RNG) : Except String Config :=
  if a.columns = none ∧ a.n_columns = none then
    Except.error ("Must specify either columns or n_columns argument")
  else
    let g0 := initRNG a.seed entropy
    match buildColumns a.columns a.n_columns g0 with
    | Except.error m => Except.error m
    | Except.ok (column_list, column_types, g1) =>
      match buildConditions a.conditions column_types g1 with
      | Except.error m => Except.error m
      | Except.ok (condition_values, g2) =>
        Except.ok
          { n_rows := a.n_rows
            main_path := a.out_file
            correct_path := outCorrectPath a
            column_list := column_list
            column_types := column_types
            condition_values := condition_values
            condition_frequency := a.condition_frequency
            guaranteed := a.guaranteed
            g := g2 }

/-- The two output files of a successful run: their paths, the shared header
row, and their data rows. -/
structure RunResult where
  main_path : String
  correct_path : String
  header : List String
  table : TableOut
deriving DecidableEq

/-- Source lines 154-162: the `generate_table` call, the only file-writing step
of the program. -/
def runGenerate (c : Config) : RunResult :=
  { main_path := c.main_path
    correct_path := c.correct_path
    header := c.column_list
    table := generate_table c.n_rows c.column_list c.column_types
      c.condition_values c.condition_frequency c.guaranteed c.g }

/-- Source lines 86-162: `main`.  A validation failure aborts before
`generate_table` runs, so an `Except.error` result carries no file content at
all; a successful run returns both files. -/
def main (a : Args) (entropy : RNG) : Except String RunResult :=
  match buildConfig a entropy with
  | Except.error m => Except.error m
  | Except.ok c => Except.ok (runGenerate c)

/-- The string the `csv` module writes for a cell: `str()` of the value. -/
def Value.render : Value → String
  | Value.int i => toString i
  | Value.str s => s

/-- `csv` dialect `excel`, minimal quoting: a field is quoted when it contains
the delimiter, the quote character, or a CR/LF. -/
def csvNeedsQuote (s : String) : Bool :=
  s.toList.contains ',' || s.toList.contains '"' ||
    s.toList.contains '\r' || s.toList.contains '\n'

/-- One rendered CSV field (quotes doubled inside a quoted field). -/
def csvField (s : String) : String :=
  if csvNeedsQuote s then "\"" ++ s.replace "\"" "\"\"" ++ "\"" else s

/-- One rendered CSV record; the default line terminator of `csv.writer` is
CRLF and the files are opened with `newline=''`, so it lands in the file
verbatim. -/
def csvRecord (fields : List String) : String :=
  String.intercalate "," (fields.map csvField) ++ "\r\n"

/-- The full text of a CSV file: header record then data records. -/
def csvFile (header : List String) (rows : List (List Value)) : String :=
  csvRecord header ++
    String.join (rows.map (fun row => csvRecord (row.map Value.render)))

/-- The records of the main output file in write order: header first, then the
data rows. -/
def RunResult.mainRecords (r : RunResult) : List (List String) :=
  r.header :: r.table.mainRows.map (fun row => row.map Value.render)

/-- The records of the correct-rows output file in write order. -/
def RunResult.correctRecords (r : RunResult) : List (List String) :=
  r.header :: r.table.correctRows.map (fun row => row.map Value.render)

/-- The exact bytes of the main output file. -/
def RunResult.mainBytes (r : RunResult) : String :=
  csvFile r.header r.table.mainRows

/-- The exact bytes of the correct-rows output file. -/
def RunResult.correctBytes (r : RunResult) : String :=
  csvFile r.header r.table.correctRows

/-- Both rendered output files, paired with their paths. -/
def renderedOutputs (r : RunResult) : (String × String) × (String × String) :=
  ((r.main_path, r.mainBytes), (r.correct_path, r.correctBytes))

/-- Whether an `Except` result is a success. -/
def isOkB {α : Type} : Except String α → Bool
  | Except.ok _ => true
  | Except.error _ => false

/-- The column name a column-spec token contributes, as `parseColumns` reads
it (the token itself when `read_key_value` fails on it). -/
def colTokenName (t : String) : String :=
  match read_key_value t ':' (some ("any")) with
  | Except.ok (name, _) => name
  | Except.error _ => t

/-- A fixed ambient generator used for concrete evaluations. -/
def zeroRNG : RNG := ⟨fun _ => 0, 0⟩

/-- A second, different ambient generator used for concrete evaluations. -/
def shiftRNG : RNG := ⟨fun i => i + 7, 0⟩

/-- Concrete run configuration: guaranteed mode, one row, frequency 0. -/
def c1Args : Args :=
  { n_rows := 1, out_file := "t.csv", columns := some ("a:int"), seed := some 0,
    condition_frequency := 0, guaranteed := true }

/-- Concrete run configuration: guaranteed mode with a zero row count. -/
def c2xArgs : Args :=
  { n_rows := 0, out_file := "t.csv", columns := some ("a:int"), seed := some 0,
    condition_frequency := 0, guaranteed := true }

/-- Concrete run configuration: two rows, frequency 0, not guaranteed. -/
def c2Args : Args :=
  { n_rows := 2, out_file := "t.csv", columns := some ("a:int"), seed := some 0,
    condition_frequency := 0 }

/-- Concrete run configuration with a caller-supplied seed. -/
def c5Args : Args :=
  { n_rows := 1, out_file := "t.csv", columns := some ("a:int"), seed := some 42,
    condition_frequency := 0 }

/-- Concrete run configuration whose frequency 2 exceeds every probability
draw. -/
def c10Args : Args :=
  { n_rows := 2, out_file := "t.csv", columns := some ("a:int"), seed := some 0,
    condition_frequency := 2 }

/-- Concrete run configuration exhibiting the derived correct-rows path. -/
def c9Args : Args :=
  { n_rows := 1, out_file := "out/data.csv", columns := some ("a:int"),
    seed := some 0, condition_frequency := 0 }

end TableGen

namespace TableGen

theorem randFloat_lt_one (g : RNG) : (randFloat g).1 < 1 := by
  have hpos : 0 < floatDenom := by norm_num [floatDenom]
  have hlt : g.stream g.pos % floatDenom < floatDenom := Nat.mod_lt _ hpos
  simp only [randFloat, RNG.next]
  rw [Rat.mkRat_eq_div, div_lt_one (by exact_mod_cast hpos)]
  exact_mod_cast hlt

theorem genLoop_ms_length (cl : List String) (ct : List (String × ColumnType))
    (cv : List (String × Value)) (f : ℚ) :
    ∀ (n : Nat) (g : RNG), (genLoop cl ct cv f n g).ms.length = n := by
  intro n
  induction n with
  | zero => intro g; rfl
  | succ n ih =>
    intro g
    simp only [genLoop]
    split
    · simp [ih]
    · simp [ih]

theorem genLoop_cs_sublist (cl : List String) (ct : List (String × ColumnType))
    (cv : List (String × Value)) (f : ℚ) :
    ∀ (n : Nat) (g : RNG),
      List.Sublist (genLoop cl ct cv f n g).cs (genLoop cl ct cv f n g).ms := by
  intro n
  induction n with
  | zero => intro g; exact List.Sublist.refl []
  | succ n ih =>
    intro g
    simp only [genLoop]
    split
    · exact List.Sublist.cons₂ _ (ih _)
    · exact List.Sublist.cons _ (ih _)

theorem genLoop_had_cs (cl : List String) (ct : List (String × ColumnType))
    (cv : List (String × Value)) (f : ℚ) :
    ∀ (n : Nat) (g : RNG),
      (genLoop cl ct cv f n g).had = true → (genLoop cl ct cv f n g).cs ≠ [] := by
  intro n
  induction n with
  | zero => intro g h; exact absurd h (by simp [genLoop])
  | succ n ih =>
    intro g
    simp only [genLoop]
    split
    · intro _; simp
    · exact fun h => ih _ h

theorem genLoop_cs_shape (cl : List String) (ct : List (String × ColumnType))
    (cv : List (String × Value)) (f : ℚ) :
    ∀ (n : Nat) (g : RNG), ∀ row ∈ (genLoop cl ct cv f n g).cs,
      ∃ g1, row = (generate_row cl ct cv g1).1 := by
  intro n
  induction n with
  | zero => intro g row h; exact absurd h (by simp [genLoop])
  | succ n ih =>
    intro g
    simp only [genLoop]
    split
    · intro row h
      rcases List.mem_cons.1 h with h | h
      · exact ⟨(randFloat g).2, h⟩
      · exact ih _ row h
    · exact fun row h => ih _ row h

theorem genLoop_cs_eq_ms (cl : List String) (ct : List (String × ColumnType))
    (cv : List (String × Value)) (f : ℚ) (hf : 1 ≤ f) :
    ∀ (n : Nat) (g : RNG), (genLoop cl ct cv f n g).cs = (genLoop cl ct cv f n g).ms := by
  intro n
  induction n with
  | zero => intro g; rfl
  | succ n ih =>
    intro g
    simp only [genLoop]
    split
    · simp [ih]
    · rename_i h
      exact absurd (lt_of_lt_of_le (randFloat_lt_one g) hf) h

theorem generate_table_guaranteed_ne_nil (n : Int) (cl : List String)
    (ct : List (String × ColumnType)) (cv : List (String × Value)) (f : ℚ) (g : RNG) :
    (generate_table n cl ct cv f true g).correctRows ≠ [] := by
  simp only [generate_table]
  split
  · simp
  · rename_i h
    push_neg at h
    exact genLoop_had_cs cl ct cv f _ g (by simpa using h.2)

theorem generate_table_ms_length (n : Int) (cl : List String)
    (ct : List (String × ColumnType)) (cv : List (String × Value)) (f : ℚ)
    (gu : Bool) (g : RNG) :
    (generate_table n cl ct cv f gu g).mainRows.length =
      (if gu then (n - 1).toNat + 1 else n.toNat) := by
  cases gu with
  | false => simp [generate_table, genLoop_ms_length]
  | true =>
    simp only [generate_table]
    split
    · simp [genLoop_ms_length]
    · simp [genLoop_ms_length]

theorem generate_table_cs_shape (n : Int) (cl : List String)
    (ct : List (String × ColumnType)) (cv : List (String × Value)) (f : ℚ)
    (gu : Bool) (g : RNG) :
    ∀ row ∈ (generate_table n cl ct cv f gu g).correctRows,
      ∃ g1, row = (generate_row cl ct cv g1).1 := by
  cases gu with
  | false =>
    simp only [generate_table]
    exact genLoop_cs_shape cl ct cv f _ g
  | true =>
    simp only [generate_table]
    split
    · intro row h
      rcases List.mem_append.1 h with h | h
      · exact genLoop_cs_shape cl ct cv f _ g row h
      · exact ⟨_, (List.mem_singleton.1 h)⟩
    · exact genLoop_cs_shape cl ct cv f _ g

theorem generate_table_all_correct (n : Int) (cl : List String)
    (ct : List (String × ColumnType)) (cv : List (String × Value)) (f : ℚ)
    (gu : Bool) (g : RNG) (hf : 1 ≤ f) :
    (generate_table n cl ct cv f gu g).correctRows =
      (generate_table n cl ct cv f gu g).mainRows := by
  cases gu with
  | false => simp [generate_table, genLoop_cs_eq_ms cl ct cv f hf]
  | true =>
    simp only [generate_table]
    split
    · simp [genLoop_cs_eq_ms cl ct cv f hf]
    · rename_i h
      push_neg at h
      exact absurd (lt_of_lt_of_le (randFloat_lt_one _) hf) (not_lt.2 h.1)

/-- C4: every data row of the correct-rows output also appears verbatim in the
main output, and the correct rows form a subsequence (same relative order) of
the main output's data rows: the rows written to the correct-rows file by
`generate_table` are a sublist of those written to the main file. -/
theorem correct_rows_sublist_main (n : Int) (cl : List String)
    (ct : List (String × ColumnType)) (cv : List (String × Value)) (f : ℚ)
    (gu : Bool) (g : RNG) :
    List.Sublist (generate_table n cl ct cv f gu g).correctRows
      (generate_table n cl ct cv f gu g).mainRows := by
  cases gu with
  | false =>
    simp only [generate_table]
    exact genLoop_cs_sublist cl ct cv f _ g
  | true =>
    simp only [generate_table]
    split
    · exact List.Sublist.append (genLoop_cs_sublist cl ct cv f _ g) (List.Sublist.refl _)
    · exact List.Sublist.trans (genLoop_cs_sublist cl ct cv f _ g)
        (List.sublist_append_left _ _)

end TableGen

namespace TableGen

theorem list_getD_mem {α : Type} : ∀ (l : List α) (n : Nat), n < l.length → ∀ d : α, l.getD n d ∈ l := by
  intro l
  induction l with
  | nil => intro n h; exact absurd h (by simp)
  | cons a t ih =>
    intro n h d
    cases n with
    | zero => simp [List.getD]
    | succ n => simpa [List.getD] using Or.inr (ih n (by simpa using h) d)

theorem generate_row_get (ct : List (String × ColumnType)) (cv : List (String × Value)) :
    ∀ (cl : List String) (g : RNG) (i : Nat) (h : i < cl.length) (v : Value),
      dictFind cv (cl.get ⟨i, h⟩) = some v →
      ((generate_row cl ct cv g).1).get? i = some v := by
  intro cl
  induction cl with
  | nil => intro g i h; exact absurd h (by simp)
  | cons c rest ih =>
    intro g i h v hv
    cases i with
    | zero =>
      simp only [List.get] at hv
      simp only [generate_row, hv]
      rfl
    | succ i =>
      simp only [List.get] at hv
      simp only [generate_row]
      cases hfind : dictFind cv c with
      | some w => simpa [hfind] using ih _ i (by simpa using h) v hv
      | none => simpa [hfind] using ih _ i (by simpa using h) v hv

/-- C3: every row that `generate_table` writes to the correct-rows output
carries, in every column named in the condition set, exactly that condition's
fixed value (the mapping `cv` resolved before generation began). -/
theorem correct_rows_satisfy_conditions (n : Int) (cl : List String)
    (ct : List (String × ColumnType)) (cv : List (String × Value)) (f : ℚ)
    (gu : Bool) (g : RNG) (row : List Value)
    (hrow : row ∈ (generate_table n cl ct cv f gu g).correctRows)
    (i : Nat) (h : i < cl.length) (v : Value)
    (hv : dictFind cv (cl.get ⟨i, h⟩) = some v) :
    row.get? i = some v := by
  obtain ⟨g1, rfl⟩ := generate_table_cs_shape n cl ct cv f gu g row hrow
  exact generate_row_get ct cv cl g1 i h v hv

/-- C3 witness: a concrete guaranteed-free run with one column and a fixed
condition value, evaluated end to end. -/
theorem correct_rows_satisfy_conditions_witness :
    ([Value.int 7] ∈ (generate_table 1 ["a"] [("a", ColumnType.INT)]
        [("a", Value.int 7)] (mkRat 2 1) false ⟨fun _ => 0, 0⟩).correctRows) ∧
      ([Value.int 7] : List Value).get? 0 = some (Value.int 7) :=
  ⟨by decide,
    correct_rows_satisfy_conditions 1 ["a"] [("a", ColumnType.INT)]
      [("a", Value.int 7)] (mkRat 2 1) false ⟨fun _ => 0, 0⟩ [Value.int 7]
      (by decide) 0 (by decide) (Value.int 7) (by decide)⟩

theorem randint_bounds (a b : Int) (g : RNG) (hab : a ≤ b) :
    a ≤ (randint a b g).1 ∧ (randint a b g).1 ≤ b := by
  simp only [randint, RNG.next]
  have hm : 0 < (b - a + 1).toNat := by omega
  have := Nat.mod_lt (g.stream g.pos) hm
  omega

theorem randCharList_spec (chars : List Char) (hch : chars ≠ []) :
    ∀ (k : Nat) (g : RNG), (randCharList chars k g).1.length = k ∧
      ∀ c ∈ (randCharList chars k g).1, c ∈ chars := by
  intro k
  induction k with
  | zero => intro g; simp [randCharList]
  | succ k ih =>
    intro g
    have hlen : 0 < chars.length := List.length_pos.2 hch
    simp only [randCharList]
    constructor
    · simp [(ih _).1]
    · intro c hc
      rcases List.mem_cons.1 hc with h | h
      · subst h
        exact list_getD_mem chars _ (Nat.mod_lt _ hlen) _
      · exact (ih _).2 c h

end TableGen

namespace TableGen

/-- C6: every value `random_value` produces lies in its declared domain: an
INT value is an integer in [-100, 100]; a HEX value is a string of exactly 8
characters from `HEX_CHARS`; a STR value is a string of length at most 25 (and
at least 0) whose characters all come from `STR_CHARS`. -/
theorem random_value_domains (t : ColumnType) (g : RNG) :
    (t = ColumnType.INT → ∃ i, (random_value t g).1 = Value.int i ∧
      -100 ≤ i ∧ i ≤ 100) ∧
    (t = ColumnType.STR → ∃ s, (random_value t g).1 = Value.str s ∧
      s.length ≤ 25 ∧ ∀ c ∈ s.toList, c ∈ STR_CHARS.toList) ∧
    (t = ColumnType.HEX → ∃ s, (random_value t g).1 = Value.str s ∧
      s.length = 8 ∧ ∀ c ∈ s.toList, c ∈ HEX_CHARS.toList) := by
  refine ⟨fun ht => ?_, fun ht => ?_, fun ht => ?_⟩ <;> subst ht
  · refine ⟨(randint (-100) 100 g).1, rfl, ?_, ?_⟩
    · exact (randint_bounds (-100) 100 g (by norm_num)).1
    · exact (randint_bounds (-100) 100 g (by norm_num)).2
  · refine ⟨String.mk (randCharList STR_CHARS.toList
      (randint 0 25 g).1.toNat (randint 0 25 g).2).1, rfl, ?_, ?_⟩
    · have hlen := (randCharList_spec STR_CHARS.toList (by decide)
        (randint 0 25 g).1.toNat (randint 0 25 g).2).1
      have hb := randint_bounds 0 25 g (by norm_num)
      have hs : (String.mk (randCharList STR_CHARS.toList
          (randint 0 25 g).1.toNat (randint 0 25 g).2).1).length =
          (randint 0 25 g).1.toNat := by
        simp only [String.length]
        exact hlen
      rw [hs]
      omega
    · intro c hc
      exact (randCharList_spec STR_CHARS.toList (by decide) _ _).2 c (by simpa using hc)
  · refine ⟨String.mk (randCharList HEX_CHARS.toList HEX_LEN g).1, rfl, ?_, ?_⟩
    · have hlen := (randCharList_spec HEX_CHARS.toList (by decide) HEX_LEN g).1
      simpa [String.length, HEX_LEN] using hlen
    · intro c hc
      exact (randCharList_spec HEX_CHARS.toList (by decide) _ _).2 c (by simpa using hc)

/-- C6 witness: the INT clause instantiated at a concrete generator state. -/
theorem random_value_domains_witness :
    ∃ i, (random_value ColumnType.INT ⟨fun _ => 0, 0⟩).1 = Value.int i ∧
      -100 ≤ i ∧ i ≤ 100 :=
  (random_value_domains ColumnType.INT ⟨fun _ => 0, 0⟩).1 rfl

theorem main_ok_iff (a : Args) (e : RNG) (r : RunResult) :
    main a e = Except.ok r ↔
      ∃ c, buildConfig a e = Except.ok c ∧ r = runGenerate c := by
  unfold main
  cases h : buildConfig a e with
  | error m => simp
  | ok c => simp [eq_comm]

theorem main_error_iff (a : Args) (e : RNG) (m : String) :
    main a e = Except.error m ↔ buildConfig a e = Except.error m := by
  unfold main
  cases h : buildConfig a e with
  | error m1 => simp
  | ok c => simp

theorem buildConfig_fields (a : Args) (e : RNG) (c : Config)
    (h : buildConfig a e = Except.ok c) :
    c.n_rows = a.n_rows ∧ c.guaranteed = a.guaranteed ∧
      c.condition_frequency = a.condition_frequency := by
  simp only [buildConfig] at h
  split at h
  · exact absurd h (by simp)
  · split at h
    · exact absurd h (by simp)
    · split at h
      · exact absurd h (by simp)
      · rw [Except.ok.injEq] at h
        subst h
        exact ⟨rfl, rfl, rfl⟩

end TableGen

namespace TableGen

/-- C1: in every successful run with `guaranteed=true` and `n_rows ≥ 1`, the
correct-rows output contains at least one data row, whatever the value of
`condition_frequency` (including 0): either some loop iteration wrote a
correct row, or the final forced row is correct. -/
theorem guaranteed_correct_nonempty (a : Args) (e : RNG) (res : RunResult)
    (hg : a.guaranteed = true) (_hn : 1 ≤ a.n_rows)
    (h : main a e = Except.ok res) :
    1 ≤ res.table.correctRows.length := by
  obtain ⟨c, hc, hr⟩ := (main_ok_iff a e res).1 h
  obtain ⟨-, hgu, -⟩ := buildConfig_fields a e c hc
  subst hr
  simp only [runGenerate]
  rw [hgu, hg]
  exact List.length_pos.2 (generate_table_guaranteed_ne_nil c.n_rows c.column_list
    c.column_types c.condition_values c.condition_frequency c.g)

/-- C1 witness: a concrete guaranteed run with `n_rows = 1` and frequency 0,
evaluated end to end. -/
theorem guaranteed_correct_nonempty_witness :
    isOkB (main c1Args zeroRNG) = true ∧
    (main c1Args zeroRNG).toOption.map
        (fun r => decide (1 ≤ r.table.correctRows.length)) = some true := by
  constructor
  · decide
  · cases h : main c1Args zeroRNG with
    | error m =>
      have hok : isOkB (main c1Args zeroRNG) = true := by decide
      rw [h] at hok
      exact absurd hok (by simp [isOkB])
    | ok r =>
      have h1 := guaranteed_correct_nonempty c1Args zeroRNG r rfl (by decide) h
      simp [Except.toOption, h1]

/-- C2 counterexample: with `guaranteed=true` and `n_rows = 0` — a
configuration `main` accepts — the main output gets one forced data row, not
`n_rows = 0` of them. -/
theorem main_rows_count_counterexample :
    c2xArgs.n_rows = 0 ∧
      ((main c2xArgs zeroRNG).toOption.map
        (fun r => r.table.mainRows.length)) = some 1 ∧ (1 : Nat) ≠ 0 :=
  ⟨by decide, by decide, by decide⟩

/-- C2 (amended): in every successful run with `guaranteed=false` and
`n_rows ≥ 0`, or `guaranteed=true` and `n_rows ≥ 1`, the main output contains
exactly `n_rows` data rows plus exactly one header row.  (With
`guaranteed=true` and `n_rows ≤ 0` the forced final row still gets written, so
the main output has one data row; negative `n_rows` always yields an empty
loop.) -/
theorem main_rows_count (a : Args) (e : RNG) (res : RunResult)
    (h : main a e = Except.ok res)
    (hn : (a.guaranteed = false ∧ 0 ≤ a.n_rows) ∨
      (a.guaranteed = true ∧ 1 ≤ a.n_rows)) :
    (res.table.mainRows.length : Int) = a.n_rows ∧
      res.mainRecords.length = res.table.mainRows.length + 1 := by
  obtain ⟨c, hc, hr⟩ := (main_ok_iff a e res).1 h
  obtain ⟨hn', hgu, -⟩ := buildConfig_fields a e c hc
  subst hr
  constructor
  · simp only [runGenerate]
    rw [generate_table_ms_length]
    rcases hn with ⟨hg, h0⟩ | ⟨hg, h1⟩
    · rw [hgu, hg, hn']
      simp
      omega
    · rw [hgu, hg, hn']
      simp
      omega
  · simp [RunResult.mainRecords]

/-- C2 witness: a concrete run with `n_rows = 2`, `guaranteed=false`. -/
theorem main_rows_count_witness :
    isOkB (main c2Args zeroRNG) = true ∧
    (main c2Args zeroRNG).toOption.map
      (fun r => (r.table.mainRows.length : Int)) = some 2 := by
  constructor
  · decide
  · cases h : main c2Args zeroRNG with
    | error m =>
      have hok : isOkB (main c2Args zeroRNG) = true := by decide
      rw [h] at hok
      exact absurd hok (by simp [isOkB])
    | ok r =>
      have h1 := (main_rows_count c2Args zeroRNG r h (Or.inl ⟨rfl, by decide⟩)).1
      simp [Except.toOption, h1]
      decide

/-- C5: determinism — two runs of `main` with the same arguments and a
caller-supplied seed give the same result, whatever ambient entropy either
process had: both the structured outputs and the rendered file bytes
coincide. -/
theorem run_deterministic_of_seed (a : Args) (e1 e2 : RNG) (s : Int)
    (h : a.seed = some s) :
    main a e1 = main a e2 ∧
      (main a e1).map renderedOutputs = (main a e2).map renderedOutputs := by
  have hb : buildConfig a e1 = buildConfig a e2 := by
    unfold buildConfig
    rw [h]
    rfl
  exact ⟨by simp only [main, hb], by simp only [main, hb]⟩

/-- C5 witness: the same seeded arguments under two different entropy
sources. -/
theorem run_deterministic_of_seed_witness :
    main c5Args zeroRNG = main c5Args shiftRNG :=
  (run_deterministic_of_seed c5Args zeroRNG shiftRNG 42 rfl).1

end TableGen

namespace TableGen

theorem buildConfig_set_freq (a : Args) (e : RNG) (q : ℚ) :
    buildConfig { a with condition_frequency := q } e =
      (buildConfig a e).map (fun c => { c with condition_frequency := q }) := by
  simp only [buildConfig]
  by_cases h : a.columns = none ∧ a.n_columns = none
  · simp [h, Except.map]
  · simp only [if_neg h]
    cases hb : buildColumns a.columns a.n_columns (initRNG a.seed e) with
    | error m => simp [hb, Except.map]
    | ok v =>
      obtain ⟨cl, ct, g1⟩ := v
      cases hc : buildConditions a.conditions ct g1 with
      | error m => simp [hb, hc, Except.map]
      | ok w =>
        obtain ⟨cv, g2⟩ := w
        simp [hb, hc, outCorrectPath, Except.map]

/-- C10: `main` performs no range validation on `condition_frequency` — the
run succeeds or fails independently of its value — and when the frequency is
at least 1 every probability draw succeeds, so every generated row is written
to both outputs. -/
theorem condition_frequency_unchecked (a : Args) (e : RNG) (q : ℚ) :
    isOkB (main { a with condition_frequency := q } e) = isOkB (main a e) ∧
    (1 ≤ a.condition_frequency → ∀ res, main a e = Except.ok res →
      res.table.correctRows = res.table.mainRows) := by
  constructor
  · simp only [main, buildConfig_set_freq]
    cases buildConfig a e <;> rfl
  · intro hf res h
    obtain ⟨c, hc, hr⟩ := (main_ok_iff a e res).1 h
    obtain ⟨-, -, hcf⟩ := buildConfig_fields a e c hc
    subst hr
    simp only [runGenerate]
    exact generate_table_all_correct c.n_rows c.column_list c.column_types
      c.condition_values c.condition_frequency c.guaranteed c.g
      (by rw [hcf]; exact hf)

/-- C10 witness: an out-of-range frequency (7/2 and 2) accepted and making
every row correct. -/
theorem condition_frequency_unchecked_witness :
    isOkB (main { c10Args with condition_frequency := mkRat 7 2 } zeroRNG) =
        isOkB (main c10Args zeroRNG) ∧
      isOkB (main c10Args zeroRNG) = true ∧
      (main c10Args zeroRNG).toOption.map (fun r => r.table.correctRows) =
        (main c10Args zeroRNG).toOption.map (fun r => r.table.mainRows) := by
  refine ⟨(condition_frequency_unchecked c10Args zeroRNG (mkRat 7 2)).1,
    by decide, ?_⟩
  cases h : main c10Args zeroRNG with
  | error m => rfl
  | ok r =>
    have h1 := (condition_frequency_unchecked c10Args zeroRNG 0).2 (by decide) r h
    simp [Except.toOption, h1]

theorem splitChar_ne_nil (d : Char) : ∀ l : List Char, splitChar d l ≠ [] := by
  intro l
  cases l with
  | nil => simp [splitChar]
  | cons c cs =>
    simp only [splitChar]
    cases h : splitChar d cs with
    | nil => simp
    | cons p ps =>
      by_cases hc : c = d
      · simp [hc]
      · simp [hc]

theorem splitChar_length (d : Char) :
    ∀ l : List Char, (splitChar d l).length = l.count d + 1 := by
  intro l
  induction l with
  | nil => rfl
  | cons c cs ih =>
    simp only [splitChar]
    cases h : splitChar d cs with
    | nil => exact absurd h (splitChar_ne_nil d cs)
    | cons p ps =>
      rw [h] at ih
      by_cases hc : c = d
      · simp only [hc, List.count_cons] at ih ⊢
        simp at ih ⊢
        omega
      · simp only [List.count_cons] at ih ⊢
        simp [hc] at ih ⊢
        omega

theorem splitChar_of_not_mem (d : Char) :
    ∀ l : List Char, d ∉ l → splitChar d l = [l] := by
  intro l
  induction l with
  | nil => intro h; rfl
  | cons c cs ih =>
    intro hmem
    have hc : ¬ c = d := fun h => hmem (by rw [h]; exact List.mem_cons_self d cs)
    have hcs : d ∉ cs := fun h => hmem (List.mem_cons_of_mem c h)
    simp only [splitChar, ih hcs]
    simp [hc]

theorem splitChar_single (d : Char) (pre post : List Char)
    (hpre : d ∉ pre) (hpost : d ∉ post) :
    splitChar d (pre ++ d :: post) = [pre, post] := by
  induction pre with
  | nil =>
    simp only [List.nil_append, splitChar, splitChar_of_not_mem d post hpost]
    simp
  | cons c cs ih =>
    have hc : ¬ c = d := fun h => hpre (by rw [h]; exact List.mem_cons_self d cs)
    have hcs : d ∉ cs := fun h => hpre (List.mem_cons_of_mem c h)
    simp only [List.cons_append, splitChar, List.append_eq]
    rw [ih hcs]
    simp [hc]

/-- C8 (amended): `read_key_value` trims whitespace from name and value; a
token without the delimiter yields the default, a token with exactly one
occurrence of the delimiter is split there, and a token with two or more
occurrences raises a `ValueError` (too many values to unpack) instead of
splitting at the first occurrence. -/
theorem read_key_value_split (encoded : String) (delimiter : Char)
    (default_value : Option String) :
    (encoded.toList.count delimiter = 0 →
      read_key_value encoded delimiter default_value =
        Except.ok (pyStrip encoded, default_value)) ∧
    (∀ pre post, encoded.toList = pre ++ delimiter :: post → delimiter ∉ pre →
      delimiter ∉ post →
      read_key_value encoded delimiter default_value =
        Except.ok (pyStrip (String.mk pre), some (pyStrip (String.mk post)))) ∧
    (2 ≤ encoded.toList.count delimiter →
      ∃ m, read_key_value encoded delimiter default_value = Except.error m) := by
  refine ⟨fun h0 => ?_, fun pre post heq hpre hpost => ?_, fun h2 => ?_⟩
  · have hmem : delimiter ∉ encoded.toList := List.count_eq_zero.1 h0
    rw [read_key_value, if_neg (by simpa using hmem)]
  · have hmem : delimiter ∈ encoded.toList := by
      rw [heq]; exact List.mem_append_right _ (List.mem_cons_self _ _)
    rw [read_key_value, if_pos (by simpa using hmem), pySplit, heq,
      splitChar_single delimiter pre post hpre hpost]
    rfl
  · have hmem : delimiter ∈ encoded.toList := by
      by_contra hnot
      rw [List.count_eq_zero.2 hnot] at h2
      omega
    have hlen : 3 ≤ (pySplit encoded delimiter).length := by
      rw [pySplit, List.length_map, splitChar_length]
      omega
    rcases hL : pySplit encoded delimiter with _ | ⟨x, _ | ⟨y, _ | ⟨z, t⟩⟩⟩
    · rw [hL] at hlen; simp at hlen
    · rw [hL] at hlen; simp at hlen
    · rw [hL] at hlen; simp at hlen
    · exact ⟨_, by rw [read_key_value, if_pos (by simpa using hmem), hL]⟩

/-- C8 witness: a token with exactly one delimiter occurrence, split there and
trimmed. -/
theorem read_key_value_split_witness :
    read_key_value "k : v" ':' (some ("any")) =
      Except.ok (pyStrip (String.mk ['k', ' ']),
        some (pyStrip (String.mk [' ', 'v']))) :=
  (read_key_value_split "k : v" ':' (some ("any"))).2.1 ['k', ' '] [' ', 'v']
    (by decide) (by decide) (by decide)

/-- C8 counterexample: on the token `a=b=c` the parser does not split at the
first `=` with remainder as the value — it raises (no result at all), while
the claim promises `("a", "b=c")`. -/
theorem read_key_value_multi_counterexample :
    (read_key_value "a=b=c" '=' none).toOption = none ∧
      (read_key_value "a=b=c" '=' none).toOption ≠ some ("a", some ("b=c")) :=
  ⟨by decide, by decide⟩

/-- C9: the default correct-rows path evaluated at `out_file = "out/data.csv"`:
the code yields `out/data_correct..csv` — `Path.suffix` already carries its
leading dot and the f-string inserts another — not the `out/data_correct.csv`
the claim describes. -/
theorem default_correct_path_double_dot :
    defaultCorrectPath "out/data.csv" = "out/data_correct..csv" ∧
      (main c9Args zeroRNG).toOption.map (fun r => r.correct_path) =
        some ("out/data_correct..csv") ∧
      "out/data_correct..csv" ≠ "out/data_correct.csv" :=
  ⟨by decide, by decide, by decide⟩

end TableGen

namespace TableGen

theorem error_exists {α : Type} : ∀ (x : Except String α),
    isOkB x = false → ∃ m, x = Except.error m := by
  intro x h
  cases x with
  | error m => exact ⟨m, rfl⟩
  | ok v => simp [isOkB] at h

theorem dictFind_append {α : Type} : ∀ (d1 d2 : List (String × α)) (k : String),
    dictFind (d1 ++ d2) k =
      ((dictFind d1 k).rec (dictFind d2 k) (fun v => some v)) := by
  intro d1
  induction d1 with
  | nil => intro d2 k; rfl
  | cons p rest ih =>
    intro d2 k
    obtain ⟨k1, v1⟩ := p
    simp only [List.cons_append, dictFind]
    by_cases hk : k = k1
    · simp [hk]
    · simp [hk, ih]

theorem dictMem_append_left {α : Type} (d1 d2 : List (String × α)) (k : String)
    (h : dictMem d1 k = true) : dictMem (d1 ++ d2) k = true := by
  simp only [dictMem] at h ⊢
  rw [dictFind_append]
  cases hf : dictFind d1 k with
  | none => rw [hf] at h; simp at h
  | some v => simp

theorem dictMem_append_key {α : Type} (d : List (String × α)) (k : String) (v : α) :
    dictMem (d ++ [(k, v)]) k = true := by
  simp only [dictMem]
  rw [dictFind_append]
  cases hf : dictFind d k with
  | none => simp [dictFind]
  | some w => simp

theorem parseColStep_error_of_bad (t : String)
    (hbad : ∀ nm v, read_key_value t ':' (some ("any")) = Except.ok (nm, v) →
      nm = "" ∨ (v.getD "any" ≠ "any" ∧
        ∀ ty, parseColumnType (v.getD "any") ≠ Except.ok ty)) :
    ∀ (cl : List String) (ct : List (String × ColumnType)) (g : RNG),
      ∃ m, parseColStep t cl ct g = Except.error m := by
  intro cl ct g
  cases hr : read_key_value t ':' (some ("any")) with
  | error m => exact ⟨m, by simp [parseColStep, hr]⟩
  | ok p =>
    obtain ⟨nm, v⟩ := p
    rcases hbad nm v hr with h0 | ⟨hany, hty⟩
    · exact error_exists _ (by simp [parseColStep, hr, h0, isOkB])
    · by_cases hnm : nm = ""
      · exact error_exists _ (by simp [parseColStep, hr, hnm, isOkB])
      · cases hpt : parseColumnType (v.getD "any") with
        | ok ty => exact absurd hpt (hty ty)
        | error m => exact ⟨m, by simp [parseColStep, hr, hnm, hany, hpt]⟩

theorem parseColStep_error_of_mem (t : String) (cl : List String)
    (ct : List (String × ColumnType)) (g : RNG)
    (hmem : dictMem ct (colTokenName t) = true) :
    ∃ m, parseColStep t cl ct g = Except.error m := by
  cases hr : read_key_value t ':' (some ("any")) with
  | error m => exact ⟨m, by simp [parseColStep, hr]⟩
  | ok p =>
    obtain ⟨nm, v⟩ := p
    have hname : colTokenName t = nm := by simp [colTokenName, hr]
    rw [hname] at hmem
    by_cases hnm : nm = ""
    · exact error_exists _ (by simp [parseColStep, hr, hnm, isOkB])
    · by_cases hany : v.getD "any" = "any"
      · exact error_exists _ (by simp [parseColStep, hr, hnm, hany, hmem, isOkB])
      · cases hpt : parseColumnType (v.getD "any") with
        | error m => exact ⟨m, by simp [parseColStep, hr, hnm, hany, hpt]⟩
        | ok ty => exact error_exists _ (by simp [parseColStep, hr, hnm, hany, hpt, hmem, isOkB])

theorem parseColStep_ok_shape (t : String) (cl : List String)
    (ct : List (String × ColumnType)) (g : RNG) (cl1 : List String)
    (ct1 : List (String × ColumnType)) (g1 : RNG)
    (h : parseColStep t cl ct g = Except.ok (cl1, ct1, g1)) :
    cl1 = cl ++ [colTokenName t] ∧
      ∃ ty, ct1 = ct ++ [(colTokenName t, ty)] := by
  cases hr : read_key_value t ':' (some ("any")) with
  | error m => simp [parseColStep, hr] at h
  | ok p =>
    obtain ⟨nm, v⟩ := p
    have hname : colTokenName t = nm := by simp [colTokenName, hr]
    rw [hname]
    simp only [parseColStep, hr] at h
    by_cases hnm : nm = ""
    · simp [hnm] at h
    · by_cases hany : v.getD "any" = "any"
      · by_cases hmem : dictMem ct nm = true
        · simp [hnm, hany, hmem] at h
        · simp [hnm, hany, hmem] at h
          exact ⟨h.1.symm, ⟨_, h.2.1.symm⟩⟩
      · cases hpt : parseColumnType (v.getD "any") with
        | error m => simp [hnm, hany, hpt] at h
        | ok ty =>
          by_cases hmem : dictMem ct nm = true
          · simp [hnm, hany, hpt, hmem] at h
          · simp [hnm, hany, hpt, hmem] at h
            exact ⟨h.1.symm, ⟨ty, h.2.1.symm⟩⟩

theorem parseColumns_error_cons (t : String) (ts : List String) (cl : List String)
    (ct : List (String × ColumnType)) (g : RNG) (m : String)
    (h : parseColStep t cl ct g = Except.error m) :
    parseColumns (t :: ts) cl ct g = Except.error m := by
  simp [parseColumns, h]

theorem parseColumns_ok_length : ∀ (tokens : List String) (cl : List String)
    (ct : List (String × ColumnType)) (g : RNG) (cl1 : List String)
    (ct1 : List (String × ColumnType)) (g1 : RNG),
    parseColumns tokens cl ct g = Except.ok (cl1, ct1, g1) →
    cl1.length = cl.length + tokens.length := by
  intro tokens
  induction tokens with
  | nil =>
    intro cl ct g cl1 ct1 g1 h
    simp only [parseColumns] at h
    rw [Except.ok.injEq] at h
    have h1 : cl = cl1 := congrArg (fun p => p.1) h
    rw [← h1]
    simp
  | cons t ts ih =>
    intro cl ct g cl1 ct1 g1 h
    simp only [parseColumns] at h
    cases hs : parseColStep t cl ct g with
    | error m => rw [hs] at h; simp at h
    | ok p =>
      obtain ⟨cl2, ct2, g2⟩ := p
      rw [hs] at h
      have hrec := ih cl2 ct2 g2 cl1 ct1 g1 h
      obtain ⟨hcl2, -⟩ := parseColStep_ok_shape t cl ct g cl2 ct2 g2 hs
      have h2 : cl2.length = cl.length + 1 := by rw [hcl2]; simp
      simp only [List.length_cons]
      omega

theorem parseColumns_error_of_bad : ∀ (tokens : List String) (t : String),
    t ∈ tokens →
    (∀ nm v, read_key_value t ':' (some ("any")) = Except.ok (nm, v) →
      nm = "" ∨ (v.getD "any" ≠ "any" ∧
        ∀ ty, parseColumnType (v.getD "any") ≠ Except.ok ty)) →
    ∀ (cl : List String) (ct : List (String × ColumnType)) (g : RNG),
      ∃ m, parseColumns tokens cl ct g = Except.error m := by
  intro tokens
  induction tokens with
  | nil => intro t ht; exact absurd ht (by simp)
  | cons t0 ts ih =>
    intro t ht hbad cl ct g
    rcases List.mem_cons.1 ht with rfl | hmem
    · obtain ⟨m, hm⟩ := parseColStep_error_of_bad t hbad cl ct g
      exact ⟨m, parseColumns_error_cons t ts cl ct g m hm⟩
    · cases hs : parseColStep t0 cl ct g with
      | error m => exact ⟨m, parseColumns_error_cons t0 ts cl ct g m hs⟩
      | ok p =>
        obtain ⟨cl2, ct2, g2⟩ := p
        obtain ⟨m, hm⟩ := ih t hmem hbad cl2 ct2 g2
        exact ⟨m, by simp [parseColumns, hs, hm]⟩

theorem parseColumns_error_of_dup : ∀ (tokens : List String) (cl : List String)
    (ct : List (String × ColumnType)) (g : RNG),
    (¬ (tokens.map colTokenName).Nodup ∨
      ∃ t ∈ tokens, dictMem ct (colTokenName t) = true) →
    ∃ m, parseColumns tokens cl ct g = Except.error m := by
  intro tokens
  induction tokens with
  | nil =>
    intro cl ct g h
    rcases h with h | ⟨t, ht, -⟩
    · simp at h
    · exact absurd ht (by simp)
  | cons t0 ts ih =>
    intro cl ct g h
    cases hs : parseColStep t0 cl ct g with
    | error m => exact ⟨m, parseColumns_error_cons t0 ts cl ct g m hs⟩
    | ok p =>
      obtain ⟨cl2, ct2, g2⟩ := p
      obtain ⟨hcl2, ty0, hct2⟩ := parseColStep_ok_shape t0 cl ct g cl2 ct2 g2 hs
      have lift : (∃ m, parseColumns ts cl2 ct2 g2 = Except.error m) →
          ∃ m, parseColumns (t0 :: ts) cl ct g = Except.error m := by
        rintro ⟨m, hm⟩
        exact ⟨m, by simp [parseColumns, hs, hm]⟩
      rcases h with hnd | ⟨t, ht, hmem⟩
      · by_cases h1 : colTokenName t0 ∈ ts.map colTokenName
        · obtain ⟨t1, ht1, hname⟩ := List.mem_map.1 h1
          refine lift (ih cl2 ct2 g2 (Or.inr ⟨t1, ht1, ?_⟩))
          rw [hname, hct2]
          exact dictMem_append_key ct (colTokenName t0) ty0
        · have h2 : ¬ (ts.map colTokenName).Nodup := by
            intro hh
            exact hnd (by simp [List.nodup_cons, h1, hh])
          exact lift (ih cl2 ct2 g2 (Or.inl h2))
      · rcases List.mem_cons.1 ht with rfl | ht1
        · obtain ⟨m, hm⟩ := parseColStep_error_of_mem t cl ct g hmem
          rw [hs] at hm
          exact absurd hm (by simp)
        · refine lift (ih cl2 ct2 g2 (Or.inr ⟨t, ht1, ?_⟩))
          rw [hct2]
          exact dictMem_append_left ct _ (colTokenName t) hmem

theorem parseConditions_error_of_unknown : ∀ (tokens : List String)
    (ct : List (String × ColumnType)) (cv : List (String × Value)) (g : RNG)
    (t : String), t ∈ tokens →
    (∀ nm v, read_key_value t '=' none = Except.ok (nm, v) →
      dictMem ct nm = false) →
    ∃ m, parseConditions tokens ct cv g = Except.error m := by
  intro tokens
  induction tokens with
  | nil => intro ct cv g t ht; exact absurd ht (by simp)
  | cons t0 ts ih =>
    intro ct cv g t ht hbad
    rcases List.mem_cons.1 ht with rfl | hmem
    · cases hr : read_key_value t '=' none with
      | error m => exact ⟨m, by simp [parseConditions, hr]⟩
      | ok p =>
        obtain ⟨nm, v⟩ := p
        have hu := hbad nm v hr
        exact error_exists _ (by simp [parseConditions, hr, hu, isOkB])
    · cases hr : read_key_value t0 '=' none with
      | error m => exact ⟨m, by simp [parseConditions, hr]⟩
      | ok p =>
        obtain ⟨nm, v⟩ := p
        by_cases hm : dictMem ct nm = false
        · exact error_exists _ (by simp [parseConditions, hr, hm, isOkB])
        · cases v with
          | some s =>
            obtain ⟨m, hrec⟩ :=
              ih ct (dictInsert cv nm (Value.str s)) g t hmem hbad
            exact ⟨m, by simp [parseConditions, hr, hm, hrec]⟩
          | none =>
            obtain ⟨m, hrec⟩ := ih ct
              (dictInsert cv nm
                (random_value ((dictFind ct nm).getD ColumnType.INT) g).1)
              (random_value ((dictFind ct nm).getD ColumnType.INT) g).2 t hmem hbad
            exact ⟨m, by simp [parseConditions, hr, hm, hrec]⟩

end TableGen

namespace TableGen

theorem buildColumns_some_error (s : String) (nco : Option Int) (g : RNG)
    (m : String) (h : parseColumns (pySplit s ',') [] [] g = Except.error m) :
    buildColumns (some s) nco g = Except.error m := by
  simp [buildColumns, h]

theorem buildColumns_error_of_count (s : String) (nc : Int) (g : RNG)
    (hlt : nc < ((pySplit s ',').length : Int)) :
    ∃ m, buildColumns (some s) (some nc) g = Except.error m := by
  cases hp : parseColumns (pySplit s ',') [] [] g with
  | error m => exact ⟨m, by simp [buildColumns, hp]⟩
  | ok p =>
    obtain ⟨cl, ct, g1⟩ := p
    have hlen := parseColumns_ok_length (pySplit s ',') [] [] g cl ct g1 hp
    apply error_exists
    simp only [buildColumns, hp]
    rw [if_pos (by simp at hlen; omega)]
    simp [isOkB]

theorem main_error_of_buildColumns (a : Args) (e : RNG)
    (hne : ¬ (a.columns = none ∧ a.n_columns = none)) (m : String)
    (h : buildColumns a.columns a.n_columns (initRNG a.seed e) = Except.error m) :
    main a e = Except.error m := by
  rw [main_error_iff]
  simp [buildConfig, hne, h]

theorem main_error_of_buildConditions (a : Args) (e : RNG)
    (hne : ¬ (a.columns = none ∧ a.n_columns = none)) (cl : List String)
    (ct : List (String × ColumnType)) (g1 : RNG)
    (hB : buildColumns a.columns a.n_columns (initRNG a.seed e) =
      Except.ok (cl, ct, g1))
    (m : String) (h : buildConditions a.conditions ct g1 = Except.error m) :
    main a e = Except.error m := by
  rw [main_error_iff]
  simp [buildConfig, hne, hB, h]

/-- C7: every validation error — missing both `columns` and `n_columns`, an
empty column name, a duplicate column name, an unrecognized type token,
`n_columns` smaller than the explicit column list, a condition referencing an
unknown column — is raised by `main` in its validation phase (`buildConfig`),
before `generate_table` (the only file-writing step) runs; a run that fails
validation therefore produces no output content at all, and a run that passes
it never fails afterwards. -/
theorem validation_errors_before_io (a : Args) (e : RNG) :
    (∀ m, main a e = Except.error m → buildConfig a e = Except.error m) ∧
    (∀ c, buildConfig a e = Except.ok c → main a e = Except.ok (runGenerate c)) ∧
    ((a.columns = none ∧ a.n_columns = none) → ∃ m, main a e = Except.error m) ∧
    (∀ s, a.columns = some s →
      ((∃ t ∈ pySplit s ',', ∃ v, read_key_value t ':' (some ("any")) =
          Except.ok ("", v)) → ∃ m, main a e = Except.error m) ∧
      ((∃ t ∈ pySplit s ',', ∃ nm v, read_key_value t ':' (some ("any")) =
          Except.ok (nm, some v) ∧ v ≠ "any" ∧
          ∀ ty, parseColumnType v ≠ Except.ok ty) →
        ∃ m, main a e = Except.error m) ∧
      (¬ ((pySplit s ',').map colTokenName).Nodup →
        ∃ m, main a e = Except.error m) ∧
      (∀ nc, a.n_columns = some nc → nc < ((pySplit s ',').length : Int) →
        ∃ m, main a e = Except.error m)) ∧
    (∀ cs cl ct g1, a.conditions = some cs →
      buildColumns a.columns a.n_columns (initRNG a.seed e) =
        Except.ok (cl, ct, g1) →
      (∃ t ∈ pySplit cs ',', ∀ nm v, read_key_value t '=' none =
        Except.ok (nm, v) → dictMem ct nm = false) →
      ∃ m, main a e = Except.error m) := by
  refine ⟨?_, ?_, ?_, ?_, ?_⟩
  · intro m h
    exact (main_error_iff a e m).1 h
  · intro c h
    simp [main, h]
  · intro h
    refine ⟨"Must specify either columns or n_columns argument",
      (main_error_iff a e _).2 ?_⟩
    simp [buildConfig, h]
  · intro s hcol
    have hne : ¬ (a.columns = none ∧ a.n_columns = none) := by simp [hcol]
    refine ⟨?_, ?_, ?_, ?_⟩
    · rintro ⟨t, ht, v, hv⟩
      have hbadp : ∀ nm w, read_key_value t ':' (some ("any")) =
          Except.ok (nm, w) → nm = "" ∨ (w.getD "any" ≠ "any" ∧
            ∀ ty, parseColumnType (w.getD "any") ≠ Except.ok ty) := by
        intro nm w hw
        rw [hv, Except.ok.injEq] at hw
        have h1 : ("" : String) = nm := congrArg (fun p => p.1) hw
        exact Or.inl h1.symm
      obtain ⟨m, hm⟩ := parseColumns_error_of_bad (pySplit s ',') t ht hbadp
        [] [] (initRNG a.seed e)
      refine ⟨m, main_error_of_buildColumns a e hne m ?_⟩
      rw [hcol]
      exact buildColumns_some_error s a.n_columns _ m hm
    · rintro ⟨t, ht, nm, v, hv, hvany, hvty⟩
      have hbadp : ∀ nm1 w, read_key_value t ':' (some ("any")) =
          Except.ok (nm1, w) → nm1 = "" ∨ (w.getD "any" ≠ "any" ∧
            ∀ ty, parseColumnType (w.getD "any") ≠ Except.ok ty) := by
        intro nm1 w hw
        rw [hv, Except.ok.injEq] at hw
        have h2 : some v = w := congrArg (fun p => p.2) hw
        rw [← h2]
        exact Or.inr ⟨by simpa using hvany, by simpa using hvty⟩
      obtain ⟨m, hm⟩ := parseColumns_error_of_bad (pySplit s ',') t ht hbadp
        [] [] (initRNG a.seed e)
      refine ⟨m, main_error_of_buildColumns a e hne m ?_⟩
      rw [hcol]
      exact buildColumns_some_error s a.n_columns _ m hm
    · intro hnd
      obtain ⟨m, hm⟩ := parseColumns_error_of_dup (pySplit s ',') [] []
        (initRNG a.seed e) (Or.inl hnd)
      refine ⟨m, main_error_of_buildColumns a e hne m ?_⟩
      rw [hcol]
      exact buildColumns_some_error s a.n_columns _ m hm
    · intro nc hnc hlt
      obtain ⟨m, hm⟩ := buildColumns_error_of_count s nc (initRNG a.seed e) hlt
      refine ⟨m, main_error_of_buildColumns a e hne m ?_⟩
      rw [hcol, hnc]
      exact hm
  · intro cs cl ct g1 hcond hB hex
    obtain ⟨t, ht, hbad⟩ := hex
    by_cases hcc : a.columns = none ∧ a.n_columns = none
    · refine ⟨"Must specify either columns or n_columns argument",
        (main_error_iff a e _).2 ?_⟩
      simp [buildConfig, hcc]
    · obtain ⟨m, hm⟩ := parseConditions_error_of_unknown (pySplit cs ',') ct []
        g1 t ht hbad
      refine ⟨m, main_error_of_buildConditions a e hcc cl ct g1 hB m ?_⟩
      rw [hcond]
      simp [buildConditions, hm]

/-- C7 witness: supplying neither `columns` nor `n_columns` aborts with an
error before any generation. -/
theorem validation_errors_before_io_witness :
    ∃ m, main { n_rows := 1, out_file := "t.csv" } zeroRNG = Except.error m :=
  (validation_errors_before_io { n_rows := 1, out_file := "t.csv" }
    zeroRNG).2.2.1 ⟨rfl, rfl⟩

end TableGen
